import Mathlib

/-!
Shallow embedding of `src/Conversation_Manager.py` (class `Conversation_Manager`),
the conversational session manager of this repository.

Modelling choices, all taken from the source:
* Messages are Python dicts with string fields `role` and `content`; the embedding
  keeps both as `String`, exactly as the source compares roles against the literal
  string "system".
* The tokenizer (`tiktoken` in `count_tokens`) is an external capability; it is
  abstracted as a parameter `tok : String → Nat`.  `total_tokens_used` sums it over
  the message contents, as the source does.
* The OpenAI completion call in `chat_completion` is external; its outcome is
  injected as an `Except String String` value (error = the exception raised by the
  client, ok = `response.choices[0].message.content`).
* The history file is modelled at the level of parsed JSON values (`Json` below):
  `json.dump` stores the value built from `conversation_history`, `json.load`
  returns the stored value.  The textual JSON codec itself is Python's standard
  library, outside this repository.
* Python exceptions raised to the caller are modelled with `Except PyErr`; an
  error outcome leaves the caller holding the pre-call state, which is faithful
  because every `raise` in the source happens before any mutation.
-/

/-- Python error values raised by the manager (`ValueError` in the source) or by the
interpreter itself (`TypeError`, see `load_conversation_history`). -/
inductive PyErr where
  | valueError (msg : String)
  | typeError (msg : String)
deriving DecidableEq, Repr

/-- A parsed JSON value, as returned by `json.load` / consumed by `json.dump`.
Only the constructors the transcript codec can produce are needed; `str`, `arr`
and `obj` cover a dumped list of role/content dicts. -/
inductive Json where
  | str (s : String)
  | arr (elems : List Json)
  | obj (fields : List (String × Json))
deriving Repr

/-- One transcript entry: a Python dict with string fields `role` and `content`. -/
structure Message where
  role : String
  content : String
deriving DecidableEq, Repr

/-- The built-in persona catalog, the four fixed entries of `self.system_messages`
in `__init__` (the fifth key, "custom", is mutable and modelled as a state field). -/
def builtinPersonas : List (String × String) :=
  [("normal_assistant", "You are a normal, cooperative assistant that does what they are told."),
   ("sassy_assistant", "You are a sassy assistant that is fed up with answering questions."),
   ("angry_assistant", "You are an angry assistant that likes yelling in all caps."),
   ("thoughtful_assistant", "You are a thoughtful assistant, always ready to dig deeper. You ask clarifying questions to ensure understanding and approach problems with a step-by-step methodology.")]

/-- Initial value of the mutable "custom" entry of `self.system_messages`. -/
def initialCustomMessage : String := "Enter your custom system message here."

/-- The mutable state of a `Conversation_Manager` instance that the specified
operations read or write: the mutable "custom" entry of `system_messages`, the
active `system_message`, the transcript, the token budget, and the contents of
the history file (none = no file written yet). -/
structure Conversation_Manager where
  custom_message : String
  system_message : String
  conversation_history : List Message
  token_budget : Nat
  file : Option Json
deriving Repr

/-- Lookup in the `self.system_messages` dict: the four built-in entries plus the
mutable "custom" entry. -/
def system_messages (s : Conversation_Manager) (key : String) : Option String :=
  if key = "custom" then some s.custom_message
  else (builtinPersonas.find? (fun p => p.1 == key)).map (fun p => p.2)

/-- `total_tokens_used`: sum of `count_tokens(message["content"])` over the
conversation history, with the tokenizer abstracted as `tok`. -/
def total_tokens_used (tok : String → Nat) (h : List Message) : Nat :=
  (h.map (fun m => tok m.content)).sum

/-- `enforce_token_budget`, at the level of the history list: while the total
token count exceeds the budget, pop the entry at index 1; stop as soon as at most
one entry remains. -/
def enforce_token_budget (tok : String → Nat) (budget : Nat) : List Message → List Message
  | [] => []
  | [m] => [m]
  | m :: n :: rest =>
    if total_tokens_used tok (m :: n :: rest) > budget then
      enforce_token_budget tok budget (m :: rest)
    else
      m :: n :: rest
termination_by l => l.length
decreasing_by simp

/-- The `enforce_token_budget` method: rewrites `self.conversation_history`. -/
def enforce_token_budget_state (tok : String → Nat) (s : Conversation_Manager) :
    Conversation_Manager :=
  { s with conversation_history :=
      enforce_token_budget tok s.token_budget s.conversation_history }

/-- `update_system_message_in_history`: if the history is non-empty and its first
entry has role "system", overwrite that entry's content with `self.system_message`;
otherwise insert a fresh system message at index 0. -/
def update_system_message_in_history (s : Conversation_Manager) : Conversation_Manager :=
  match s.conversation_history with
  | m :: rest =>
    if m.role = "system" then
      { s with conversation_history := { m with content := s.system_message } :: rest }
    else
      { s with conversation_history :=
          ⟨"system", s.system_message⟩ :: m :: rest }
  | [] => { s with conversation_history := [⟨"system", s.system_message⟩] }

/-- `set_persona`: if `persona` is a key of `system_messages`, set
`self.system_message` to the table entry and sync the history; otherwise raise
`ValueError` (the raise happens before any assignment, so the caller's state is
untouched on error). -/
def set_persona (persona : String) (s : Conversation_Manager) :
    Except PyErr Conversation_Manager :=
  match system_messages s persona with
  | some msg =>
    .ok (update_system_message_in_history { s with system_message := msg })
  | none => .error (.valueError ("Unknown persona: " ++ persona))

/-- `set_custom_system_message`: raise `ValueError` when `not custom_message`
holds, i.e. exactly when the string is empty; otherwise overwrite the "custom"
table entry and delegate to `set_persona "custom"`. -/
def set_custom_system_message (custom_message : String) (s : Conversation_Manager) :
    Except PyErr Conversation_Manager :=
  if custom_message = "" then
    .error (.valueError "Custom message cannot be empty.")
  else
    set_persona "custom" { s with custom_message := custom_message }

/-- Encoding of one history entry as the JSON object `json.dump` writes for it:
the dict is built with key "role" first, then "content". -/
def encodeMessage (m : Message) : Json :=
  .obj [("role", .str m.role), ("content", .str m.content)]

/-- Encoding of the whole history as the JSON array `json.dump` writes. -/
def encodeHistory (h : List Message) : Json :=
  .arr (h.map encodeMessage)

/-- Field lookup in a parsed JSON object, as `message["role"]` does on the result
of `json.load`. -/
def jsonField (fields : List (String × Json)) (key : String) : Option Json :=
  (fields.find? (fun p => p.1 == key)).map (fun p => p.2)

/-- Reading one history entry back out of a parsed JSON value: both the "role"
and the "content" field must be present and be strings. -/
def decodeMessage : Json → Option Message
  | .obj fields =>
    match jsonField fields "role", jsonField fields "content" with
    | some (.str r), some (.str c) => some ⟨r, c⟩
    | _, _ => none
  | _ => none

/-- Reading each entry of a parsed JSON array in order; fails if any entry does. -/
def decodeMessages : List Json → Option (List Message)
  | [] => some []
  | j :: rest =>
    match decodeMessage j, decodeMessages rest with
    | some m, some ms => some (m :: ms)
    | _, _ => none

/-- Reading a whole history back out of a parsed JSON value. -/
def decodeHistory : Json → Option (List Message)
  | .arr xs => decodeMessages xs
  | _ => none

/-- `save_conversation_history`: `json.dump` the history to the history file,
overwriting its previous contents. -/
def save_conversation_history (s : Conversation_Manager) : Conversation_Manager :=
  { s with file := some (encodeHistory s.conversation_history) }

/-- `chat_completion`: append the user prompt, enforce the token budget, then
invoke the completion service on the current transcript.  On service failure
print a diagnostic and return `none` (Python `None`); on success append the
assistant reply, save the history, and return the reply text. -/
def chat_completion (tok : String → Nat) (service : Except String String)
    (prompt : String) (s : Conversation_Manager) :
    Option String × Conversation_Manager :=
  let s1 := { s with conversation_history :=
      s.conversation_history ++ [⟨"user", prompt⟩] }
  let s2 := enforce_token_budget_state tok s1
  match service with
  | .error _ => (none, s2)
  | .ok text =>
    let s3 := { s2 with conversation_history :=
        s2.conversation_history ++ [⟨"assistant", text⟩] }
    (some text, save_conversation_history s3)

/-- `reset_conversation_history`: replace the history with the single system
message holding `self.system_message`, then save. -/
def reset_conversation_history (s : Conversation_Manager) : Conversation_Manager :=
  save_conversation_history
    { s with conversation_history := [⟨"system", s.system_message⟩] }

/-- The state of the history file as `load_conversation_history` can encounter it. -/
inductive FileState where
  | absent
  | unreadable
  | malformed
  | valid (j : Json)

/-- What construction-time loading produces. -/
inductive LoadOutcome where
  | loaded (value : Json)
  | fresh (history : List Message)
  | uncaught (e : PyErr)
deriving Repr

/-- The `TypeError` CPython raises when an `except` clause names a class that is
not derived from `BaseException`. -/
def exceptClauseTypeError : PyErr :=
  .typeError "catching classes that do not inherit from BaseException is not allowed"

/-- `load_conversation_history`.  An absent file raises `FileNotFoundError`,
which the first handler catches, seeding the default single-entry history.  An
unreadable file raises `PermissionError` and malformed contents raise
`json.JSONDecodeError`; neither matches `FileNotFoundError`, and the second
handler is `except json.JSONDecoder:` — `json.JSONDecoder` is not an exception
class, so matching against it raises `TypeError` and construction fails.
A file that parses is loaded as-is (no validation of its shape). -/
def load_conversation_history (sys_msg : String) : FileState → LoadOutcome
  | .absent => .fresh [⟨"system", sys_msg⟩]
  | .unreadable => .uncaught exceptClauseTypeError
  | .malformed => .uncaught exceptClauseTypeError
  | .valid j => .loaded j

/-- A freshly constructed manager with no prior history file: default persona
"normal_assistant", given token budget. -/
def fresh_manager (budget : Nat) : Conversation_Manager :=
  { custom_message := initialCustomMessage
    system_message := "You are a normal, cooperative assistant that does what they are told."
    conversation_history :=
      [⟨"system", "You are a normal, cooperative assistant that does what they are told."⟩]
    token_budget := budget
    file := none }

/-- Transcript invariant of the spec: never empty, and every entry after index 0
has a role other than "system" (hence at most one system message, and if present
it sits at index 0). -/
def HistInv (h : List Message) : Prop :=
  h ≠ [] ∧ ∀ m ∈ h.tail, m.role ≠ "system"

instance (h : List Message) : Decidable (HistInv h) := by
  unfold HistInv
  infer_instance

/-- A one-token-per-message tokenizer, used to instantiate witnesses. -/
def tokOne : String → Nat := fun _ => 1

theorem enforce_eq_drop (tok : String → Nat) (budget : Nat) (m : Message) :
    ∀ rest : List Message,
      ∃ k, enforce_token_budget tok budget (m :: rest) = m :: rest.drop k := by
  intro rest
  induction rest with
  | nil => exact ⟨0, by simp [enforce_token_budget]⟩
  | cons n t ih =>
    rw [enforce_token_budget]
    split
    · obtain ⟨k, hk⟩ := ih
      exact ⟨k + 1, by simpa using hk⟩
    · exact ⟨0, rfl⟩

theorem enforce_post (tok : String → Nat) (budget : Nat) (m : Message)
    (rest : List Message) :
    total_tokens_used tok (enforce_token_budget tok budget (m :: rest)) ≤ budget
    ∨ (enforce_token_budget tok budget (m :: rest)).length ≤ 1 := by
  induction rest with
  | nil => right; simp [enforce_token_budget]
  | cons n t ih =>
    rw [enforce_token_budget]
    split
    · exact ih
    · rename_i hle
      exact Or.inl (Nat.le_of_not_lt hle)

theorem enforce_fix (tok : String → Nat) (budget : Nat) (h : List Message)
    (hfix : total_tokens_used tok h ≤ budget ∨ h.length ≤ 1) :
    enforce_token_budget tok budget h = h := by
  match h with
  | [] => simp [enforce_token_budget]
  | [m] => simp [enforce_token_budget]
  | m :: n :: rest =>
    rw [enforce_token_budget]
    rcases hfix with hle | hlen
    · simp [Nat.not_lt.mpr hle]
    · simp at hlen

/-- Claim C3: for every budget and every transcript whose total token count
exceeds the budget (including budget 0), `enforce_token_budget` reaches a state
whose total is within the budget or which has exactly one message remaining, and
a further call leaves that state unchanged (idempotence).  Termination holds by
construction: the function is total. -/
theorem c3_enforce_token_budget_converges (tok : String → Nat) (budget : Nat)
    (h : List Message) (hover : total_tokens_used tok h > budget) :
    (total_tokens_used tok (enforce_token_budget tok budget h) ≤ budget
      ∨ (enforce_token_budget tok budget h).length = 1)
    ∧ enforce_token_budget tok budget (enforce_token_budget tok budget h)
      = enforce_token_budget tok budget h := by
  match h with
  | [] => simp [total_tokens_used] at hover
  | m :: rest =>
    have hpost := enforce_post tok budget m rest
    refine ⟨?_, enforce_fix tok budget _ hpost⟩
    rcases hpost with h1 | h2
    · exact Or.inl h1
    · right
      obtain ⟨k, hk⟩ := enforce_eq_drop tok budget m rest
      rw [hk] at h2 ⊢
      simp at h2 ⊢
      omega

/-- Witness for C3 at the pathological budget 0 with a two-entry transcript. -/
theorem c3_enforce_token_budget_converges_witness :
    total_tokens_used tokOne [(⟨"system", "s"⟩ : Message), ⟨"user", "hi"⟩] > 0
    ∧ ((total_tokens_used tokOne
          (enforce_token_budget tokOne 0 [(⟨"system", "s"⟩ : Message), ⟨"user", "hi"⟩]) ≤ 0
        ∨ (enforce_token_budget tokOne 0
            [(⟨"system", "s"⟩ : Message), ⟨"user", "hi"⟩]).length = 1)
      ∧ enforce_token_budget tokOne 0
          (enforce_token_budget tokOne 0 [(⟨"system", "s"⟩ : Message), ⟨"user", "hi"⟩])
        = enforce_token_budget tokOne 0 [(⟨"system", "s"⟩ : Message), ⟨"user", "hi"⟩]) :=
  ⟨by decide, c3_enforce_token_budget_converges tokOne 0 _ (by decide)⟩

/-- Claim C5: on an over-budget transcript, enforcement removes entries one at a
time from index 1, i.e. the survivors are the index-0 message followed by a
suffix of the remaining entries (FIFO over non-system turns); the index-0
message is never removed. -/
theorem c5_eviction_fifo (tok : String → Nat) (budget : Nat) (m : Message)
    (rest : List Message)
    (hover : total_tokens_used tok (m :: rest) > budget) :
    ∃ k, enforce_token_budget tok budget (m :: rest) = m :: List.drop k rest :=
  enforce_eq_drop tok budget m rest

/-- Witness for C5 on a three-entry over-budget transcript. -/
theorem c5_eviction_fifo_witness :
    total_tokens_used tokOne
      [(⟨"system", "s"⟩ : Message), ⟨"user", "u1"⟩, ⟨"user", "u2"⟩] > 1
    ∧ ∃ k, enforce_token_budget tokOne 1
        [(⟨"system", "s"⟩ : Message), ⟨"user", "u1"⟩, ⟨"user", "u2"⟩]
      = ⟨"system", "s"⟩ :: List.drop k [(⟨"user", "u1"⟩ : Message), ⟨"user", "u2"⟩] :=
  ⟨by decide, c5_eviction_fifo tokOne 1 _ _ (by decide)⟩

theorem decode_encode_message (m : Message) :
    decodeMessage (encodeMessage m) = some m := by
  rfl

theorem decode_encode_history (h : List Message) :
    decodeHistory (encodeHistory h) = some h := by
  induction h with
  | nil => rfl
  | cons m t ih =>
    simp only [decodeHistory, encodeHistory, List.map_cons, decodeMessages,
      decode_encode_message] at ih ⊢
    simp [ih]

/-- Claim C7: saving the transcript stores a JSON value from which loading (and
reading the role/content fields back out, as the program does) reproduces the
identical ordered message sequence. -/
theorem c7_persist_load_roundtrip (sys : String) (s : Conversation_Manager) :
    ∃ j, (save_conversation_history s).file = some j
      ∧ load_conversation_history sys (.valid j) = .loaded j
      ∧ decodeHistory j = some s.conversation_history :=
  ⟨encodeHistory s.conversation_history, rfl, rfl, decode_encode_history _⟩

/-- Claim C10: `reset_conversation_history` replaces the transcript by the single
system message holding the active system message, for any prior length, and then
persists exactly that transcript. -/
theorem c10_reset_conversation_history (s : Conversation_Manager) :
    (reset_conversation_history s).conversation_history
      = [⟨"system", s.system_message⟩]
    ∧ (reset_conversation_history s).file
      = some (encodeHistory [⟨"system", s.system_message⟩]) :=
  ⟨rfl, rfl⟩

/-- Claim C9: for every name absent from the persona table, `set_persona` raises
`ValueError`; the raise precedes every assignment, so the caller keeps the
unmodified state. -/
theorem c9_unknown_persona (name : String) (s : Conversation_Manager)
    (habsent : system_messages s name = none) :
    set_persona name s = .error (.valueError ("Unknown persona: " ++ name)) := by
  simp [set_persona, habsent]

/-- Witness for C9 at the persona name "nonexistent". -/
theorem c9_unknown_persona_witness :
    system_messages (fresh_manager 4096) "nonexistent" = none
    ∧ set_persona "nonexistent" (fresh_manager 4096)
      = .error (.valueError ("Unknown persona: " ++ "nonexistent")) :=
  ⟨by decide, c9_unknown_persona "nonexistent" (fresh_manager 4096) (by decide)⟩

theorem update_head (s : Conversation_Manager) :
    (update_system_message_in_history s).conversation_history.head?
      = some ⟨"system", s.system_message⟩ := by
  unfold update_system_message_in_history
  split
  · rename_i m rest heq
    split
    · rename_i hrole
      simp [hrole]
    · simp
  · simp

theorem update_system_message_field (s : Conversation_Manager) :
    (update_system_message_in_history s).system_message = s.system_message := by
  unfold update_system_message_in_history
  split
  · split <;> rfl
  · rfl

theorem update_custom_message_field (s : Conversation_Manager) :
    (update_system_message_in_history s).custom_message = s.custom_message := by
  unfold update_system_message_in_history
  split
  · split <;> rfl
  · rfl

theorem builtin_lookup (s : Conversation_Manager) (name text : String)
    (hmem : (name, text) ∈ builtinPersonas) :
    system_messages s name = some text := by
  simp only [builtinPersonas, List.mem_cons, List.not_mem_nil, or_false,
    Prod.mk.injEq] at hmem
  rcases hmem with ⟨h1, h2⟩ | ⟨h1, h2⟩ | ⟨h1, h2⟩ | ⟨h1, h2⟩ <;>
    subst h1 <;> subst h2 <;> rfl

/-- Claim C8: for every persona in the built-in catalog, `set_persona` succeeds,
sets the active system message to the catalog's text, and makes the index-0
transcript entry the system message with that text. -/
theorem c8_set_persona_builtin (s : Conversation_Manager) (name text : String)
    (hmem : (name, text) ∈ builtinPersonas) :
    ∃ s2, set_persona name s = .ok s2
      ∧ s2.system_message = text
      ∧ s2.conversation_history.head? = some ⟨"system", text⟩ := by
  have hlook := builtin_lookup s name text hmem
  refine ⟨update_system_message_in_history { s with system_message := text },
    ?_, ?_, ?_⟩
  · simp [set_persona, hlook]
  · exact update_system_message_field _
  · exact update_head { s with system_message := text }

/-- Witness for C8 at the persona "sassy_assistant" on a fresh manager. -/
theorem c8_set_persona_builtin_witness :
    (("sassy_assistant",
        "You are a sassy assistant that is fed up with answering questions.")
      ∈ builtinPersonas)
    ∧ ∃ s2, set_persona "sassy_assistant" (fresh_manager 4096) = .ok s2
        ∧ s2.system_message
          = "You are a sassy assistant that is fed up with answering questions."
        ∧ s2.conversation_history.head?
          = some ⟨"system",
              "You are a sassy assistant that is fed up with answering questions."⟩ :=
  ⟨by decide, c8_set_persona_builtin (fresh_manager 4096) _ _ (by decide)⟩

/-- Claim C1 (evaluation at the failing inputs): an absent file degrades to the
default single-entry transcript, but malformed contents or an unreadable file
make loading propagate an uncaught `TypeError` — the decode-error handler names
`json.JSONDecoder`, which is not an exception class — so construction fails
instead of degrading. -/
theorem c1_load_conversation_history_behaviour (sys : String) :
    load_conversation_history sys .malformed = .uncaught exceptClauseTypeError
    ∧ load_conversation_history sys .unreadable = .uncaught exceptClauseTypeError
    ∧ load_conversation_history sys .absent = .fresh [⟨"system", sys⟩] :=
  ⟨rfl, rfl, rfl⟩

/-- Counterexample to C2 as stated: whitespace-only text does not raise; the
call succeeds and mutates the custom table entry, the active system message and
the transcript's system slot. -/
theorem c2_whitespace_counterexample :
    (set_custom_system_message "   " (fresh_manager 4096)).toOption.map
      Conversation_Manager.system_message = some "   "
    ∧ (set_custom_system_message "   " (fresh_manager 4096)).toOption.map
      Conversation_Manager.custom_message = some "   "
    ∧ (set_custom_system_message "   " (fresh_manager 4096)).toOption.map
      Conversation_Manager.conversation_history = some [⟨"system", "   "⟩] :=
  ⟨rfl, rfl, rfl⟩

/-- Claim C2 (amended): `set_custom_system_message` rejects exactly the empty
string, raising `ValueError` with the caller's state untouched; every non-empty
text — whitespace-only included — is accepted: the "custom" entry, the active
system message, and the transcript's index-0 system slot all become that text. -/
theorem c2_set_custom_system_message_empty_only (s : Conversation_Manager)
    (text : String) (hne : text ≠ "") :
    set_custom_system_message "" s
      = .error (.valueError "Custom message cannot be empty.")
    ∧ ∃ s2, set_custom_system_message text s = .ok s2
        ∧ s2.custom_message = text
        ∧ s2.system_message = text
        ∧ s2.conversation_history.head? = some ⟨"system", text⟩ := by
  refine ⟨rfl,
    update_system_message_in_history
      { s with custom_message := text, system_message := text }, ?_, ?_, ?_, ?_⟩
  · simp [set_custom_system_message, hne, set_persona, system_messages]
  · exact update_custom_message_field _
  · exact update_system_message_field _
  · exact update_head _

/-- Witness for the amended C2 at the whitespace-only text of the original claim. -/
theorem c2_set_custom_system_message_empty_only_witness :
    ("   " : String) ≠ ""
    ∧ (set_custom_system_message "" (fresh_manager 4096)
        = .error (.valueError "Custom message cannot be empty.")
      ∧ ∃ s2, set_custom_system_message "   " (fresh_manager 4096) = .ok s2
          ∧ s2.custom_message = "   "
          ∧ s2.system_message = "   "
          ∧ s2.conversation_history.head? = some ⟨"system", "   "⟩) :=
  ⟨by decide,
    c2_set_custom_system_message_empty_only (fresh_manager 4096) "   " (by decide)⟩

theorem histInv_update (s : Conversation_Manager)
    (hInv : HistInv s.conversation_history) :
    HistInv (update_system_message_in_history s).conversation_history := by
  obtain ⟨hne, htail⟩ := hInv
  unfold update_system_message_in_history
  split
  · rename_i m rest heq
    rw [heq] at htail
    simp only [List.tail_cons] at htail
    split
    · exact ⟨by simp, by simpa using htail⟩
    · rename_i hrole
      refine ⟨by simp, ?_⟩
      intro x hx
      simp only [List.tail_cons, List.mem_cons] at hx
      rcases hx with hx | hx
      · subst hx; exact hrole
      · exact htail x hx
  · exact ⟨by simp, by simp⟩

theorem histInv_append (h : List Message) (m : Message)
    (hInv : HistInv h) (hrole : m.role ≠ "system") :
    HistInv (h ++ [m]) := by
  obtain ⟨hne, htail⟩ := hInv
  match h with
  | [] => exact absurd rfl hne
  | a :: t =>
    refine ⟨by simp, ?_⟩
    intro x hx
    simp only [List.cons_append, List.tail_cons, List.mem_append,
      List.mem_singleton] at hx
    rcases hx with hx | hx
    · exact htail x (by simpa using hx)
    · subst hx; exact hrole

theorem histInv_enforce (tok : String → Nat) (budget : Nat) (h : List Message)
    (hInv : HistInv h) : HistInv (enforce_token_budget tok budget h) := by
  obtain ⟨hne, htail⟩ := hInv
  match h with
  | [] => exact absurd rfl hne
  | m :: rest =>
    obtain ⟨k, hk⟩ := enforce_eq_drop tok budget m rest
    rw [hk]
    refine ⟨by simp, ?_⟩
    intro x hx
    simp only [List.tail_cons] at hx
    exact htail x (by simpa using List.drop_subset k rest hx)

/-- Claim C6: from any state satisfying the transcript invariants — non-empty,
at most one system message, and that one at index 0 — every public operation
(`set_persona`, `set_custom_system_message`, the system-slot sync,
`enforce_token_budget`, `chat_completion`, `reset_conversation_history`)
yields a state satisfying them again. -/
theorem c6_invariants_preserved (tok : String → Nat)
    (service : Except String String) (persona text prompt : String)
    (s : Conversation_Manager) (hInv : HistInv s.conversation_history) :
    (∀ s2, set_persona persona s = .ok s2 → HistInv s2.conversation_history)
    ∧ (∀ s2, set_custom_system_message text s = .ok s2 →
        HistInv s2.conversation_history)
    ∧ HistInv (update_system_message_in_history s).conversation_history
    ∧ HistInv (enforce_token_budget_state tok s).conversation_history
    ∧ HistInv (chat_completion tok service prompt s).2.conversation_history
    ∧ HistInv (reset_conversation_history s).conversation_history := by
  refine ⟨?_, ?_, histInv_update s hInv, ?_, ?_, ?_⟩
  · intro s2 h2
    unfold set_persona at h2
    split at h2
    · cases h2
      exact histInv_update _ hInv
    · cases h2
  · intro s2 h2
    unfold set_custom_system_message at h2
    split at h2
    · cases h2
    · unfold set_persona at h2
      split at h2
      · cases h2
        exact histInv_update _ hInv
      · cases h2
  · exact histInv_enforce tok s.token_budget s.conversation_history hInv
  · have huser : HistInv (s.conversation_history ++ [⟨"user", prompt⟩]) :=
      histInv_append _ _ hInv (by simp)
    cases service with
    | error e =>
      exact histInv_enforce tok s.token_budget _ huser
    | ok reply =>
      exact histInv_append _ _
        (histInv_enforce tok s.token_budget _ huser) (by simp)
  · exact ⟨by simp [reset_conversation_history, save_conversation_history],
      by simp [reset_conversation_history, save_conversation_history]⟩

/-- Witness for C6 on a fresh manager, with a unit tokenizer, a succeeding
service stub, and concrete persona, custom text and prompt. -/
theorem c6_invariants_preserved_witness :
    HistInv (fresh_manager 4096).conversation_history
    ∧ ((∀ s2, set_persona "normal_assistant" (fresh_manager 4096) = .ok s2 →
          HistInv s2.conversation_history)
      ∧ (∀ s2, set_custom_system_message "be brief" (fresh_manager 4096) = .ok s2 →
          HistInv s2.conversation_history)
      ∧ HistInv
          (update_system_message_in_history (fresh_manager 4096)).conversation_history
      ∧ HistInv
          (enforce_token_budget_state tokOne (fresh_manager 4096)).conversation_history
      ∧ HistInv
          (chat_completion tokOne (.ok "hello") "hi"
            (fresh_manager 4096)).2.conversation_history
      ∧ HistInv
          (reset_conversation_history (fresh_manager 4096)).conversation_history) :=
  ⟨by decide,
    c6_invariants_preserved tokOne (.ok "hello") "normal_assistant" "be brief" "hi"
      (fresh_manager 4096) (by decide)⟩

theorem getLast?_drop (k : Nat) (l : List Message) (hne : l.drop k ≠ []) :
    (l.drop k).getLast? = l.getLast? := by
  induction k generalizing l with
  | zero => rfl
  | succ k ih =>
    match l with
    | [] => simp at hne
    | a :: t =>
      simp only [List.drop_succ_cons] at hne ⊢
      rw [ih t hne]
      have ht : t ≠ [] := by
        intro h
        rw [h] at hne
        simp at hne
      match t, ht with
      | b :: t2, _ => simp [List.getLast?_cons_cons]

/-- Claim C4 (amended): when the completion service fails, `chat_completion`
returns `none` with no exception escaping, appends no assistant message — the
resulting transcript is exactly budget enforcement applied to the prior
transcript with the user message appended — and whenever that user message
survived enforcement it is the last transcript entry.  (Enforcement runs after
the append and can evict the fresh user turn under a small budget, so "remains
the last entry" holds only in this conditional form.) -/
theorem c4_chat_completion_failure (tok : String → Nat) (err prompt : String)
    (s : Conversation_Manager) :
    (chat_completion tok (.error err) prompt s).1 = none
    ∧ (chat_completion tok (.error err) prompt s).2.conversation_history
      = enforce_token_budget tok s.token_budget
          (s.conversation_history ++ [⟨"user", prompt⟩])
    ∧ ((⟨"user", prompt⟩ : Message)
          ∈ (chat_completion tok (.error err) prompt s).2.conversation_history →
        (chat_completion tok (.error err) prompt s).2.conversation_history.getLast?
          = some ⟨"user", prompt⟩) := by
  refine ⟨rfl, rfl, ?_⟩
  show (⟨"user", prompt⟩ : Message)
      ∈ enforce_token_budget tok s.token_budget
          (s.conversation_history ++ [⟨"user", prompt⟩]) →
    (enforce_token_budget tok s.token_budget
        (s.conversation_history ++ [⟨"user", prompt⟩])).getLast?
      = some ⟨"user", prompt⟩
  match hh : s.conversation_history with
  | [] =>
    intro _
    simp [enforce_token_budget]
  | m :: t =>
    obtain ⟨k, hk⟩ := enforce_eq_drop tok s.token_budget m (t ++ [⟨"user", prompt⟩])
    simp only [List.cons_append] at hk ⊢
    rw [hk]
    intro hmem
    by_cases hd : (t ++ [(⟨"user", prompt⟩ : Message)]).drop k = []
    · rw [hd] at hmem ⊢
      simp only [List.mem_singleton] at hmem
      simp [hmem]
    · have hlast : ((t ++ [(⟨"user", prompt⟩ : Message)]).drop k).getLast?
          = some ⟨"user", prompt⟩ := by
        rw [getLast?_drop k _ hd]
        simp
      match hdd : (t ++ [(⟨"user", prompt⟩ : Message)]).drop k, hd with
      | b :: t2, _ =>
        rw [hdd] at hlast
        rw [List.getLast?_cons_cons]
        exact hlast

/-- Witness for the amended C4: a large budget, so the user turn survives
enforcement and is the last entry after the failing call. -/
theorem c4_chat_completion_failure_witness :
    ((⟨"user", "hi"⟩ : Message)
      ∈ (chat_completion tokOne (.error "e") "hi"
          (fresh_manager 4096)).2.conversation_history)
    ∧ (chat_completion tokOne (.error "e") "hi"
        (fresh_manager 4096)).2.conversation_history.getLast?
      = some ⟨"user", "hi"⟩
    ∧ (chat_completion tokOne (.error "e") "hi" (fresh_manager 4096)).1 = none := by
  have h := c4_chat_completion_failure tokOne "e" "hi" (fresh_manager 4096)
  have hmem : (⟨"user", "hi"⟩ : Message)
      ∈ (chat_completion tokOne (.error "e") "hi"
          (fresh_manager 4096)).2.conversation_history := by
    simp [chat_completion, enforce_token_budget_state, enforce_token_budget,
      total_tokens_used, fresh_manager, tokOne]
  exact ⟨hmem, h.2.2 hmem, h.1⟩

/-- Counterexample to C4 as stated: with token budget 0 the failing call leaves
a transcript in which the user turn was evicted by budget enforcement, so the
last entry is the system message, not the appended user message. -/
theorem c4_user_turn_evicted_counterexample :
    (chat_completion tokOne (.error "boom") "hi" (fresh_manager 0)).1 = none
    ∧ (chat_completion tokOne (.error "boom") "hi"
        (fresh_manager 0)).2.conversation_history
      = [⟨"system",
          "You are a normal, cooperative assistant that does what they are told."⟩]
    ∧ (chat_completion tokOne (.error "boom") "hi"
        (fresh_manager 0)).2.conversation_history.getLast?
      ≠ some ⟨"user", "hi"⟩ := by
  refine ⟨rfl, ?_, ?_⟩
  · simp [chat_completion, enforce_token_budget_state, enforce_token_budget,
      total_tokens_used, fresh_manager, tokOne]
  · simp [chat_completion, enforce_token_budget_state, enforce_token_budget,
      total_tokens_used, fresh_manager, tokOne]
